import Mathlib

/-!
Verification of `stitch_pdfs.py` (vors/not_today_anthem).

The program converts each page of a PDF into a raster image and stitches the
pages vertically into one tall canvas, then saves that canvas as a single-page
PDF; a driver iterates a folder and runs this per `.pdf` file.

Shallow embedding notes:
* A decoded page raster (PIL image) is `Img`: width, height, and a pixel map.
* `convert_from_path` and `Image.save` are external collaborators; each call
  site is represented by the outcome the collaborator produces there
  (`DecodeResult` for the rasterizer, `SaveResult` for the encoder), exactly
  as observed by the code at that call site.
* Python `print` calls accumulate into a `logs` list; written files into a
  `written` list; an exception that escapes the function is `raised`; the
  Python return value `None` is `ret = some ()` (and `ret = none` when the
  function never returns because an exception escaped).
* `os.makedirs` on the output folder is an out-of-scope filesystem effect
  (it touches no data the claims mention) and is not modelled.
-/

/-- An RGB color, as the triple PIL uses for mode "RGB". -/
def Color : Type := Nat × Nat × Nat

instance : DecidableEq Color := instDecidableEqProd

/-- White, the fill color `(255, 255, 255)` used for the blank canvas. -/
def white : Color := (255, 255, 255)

/-- A decoded raster image: width and height in pixels and the pixel buffer,
addressed as `px x y` with `x` the column and `y` the row from the top. -/
structure Img where
  width : Nat
  height : Nat
  px : Nat → Nat → Color

/-- `Image.new "RGB" (w, h) color`: a `w × h` image with every pixel `c`. -/
def Image_new (w h : Nat) (c : Color) : Img :=
  { width := w, height := h, px := fun _ _ => c }

/-- `dst.paste(src, (x0, y0))`: unconditional overwrite of the rectangle of
`dst` whose top-left corner is `(x0, y0)` with the pixels of `src`; every
pixel outside that rectangle is untouched. No blending, no alpha. -/
def paste (dst src : Img) (x0 y0 : Nat) : Img :=
  { dst with
      px := fun x y =>
        if x0 ≤ x ∧ x < x0 + src.width ∧ y0 ≤ y ∧ y < y0 + src.height then
          src.px (x - x0) (y - y0)
        else
          dst.px x y }

/-- `max_width = max(img.width for img in images)`: Python `max` over a
non-empty sequence of naturals, realised as a fold (the `0` seed does not
change the value on a non-empty list of naturals). -/
def maxWidth (images : List Img) : Nat :=
  (images.map Img.width).foldl Nat.max 0

/-- `total_height = sum(img.height for img in images)`. -/
def totalHeight (images : List Img) : Nat :=
  (images.map Img.height).sum

/-- The blank canvas allocated by `process_pdf`:
`Image.new("RGB", (max_width, total_height), color=(255, 255, 255))`. -/
def initialCanvas (images : List Img) : Img :=
  Image_new (maxWidth images) (totalHeight images) white

/-- The paste loop of `process_pdf`: starting from a canvas and the running
vertical offset `current_y`, paste each page at `(0, current_y)` and add its
height to `current_y`. Returns the final canvas and the final offset. -/
def pasteLoop : Img → Nat → List Img → Img × Nat
  | canvas, y, [] => (canvas, y)
  | canvas, y, img :: rest => pasteLoop (paste canvas img 0 y) (y + img.height) rest

/-- The full composition step of `process_pdf` on a decoded page sequence:
allocate the white canvas and run the paste loop from offset `0`. -/
def stitchPages (images : List Img) : Img :=
  (pasteLoop (initialCanvas images) 0 images).1

/-- Outcome of the `convert_from_path(input_pdf, dpi=dpi)` call: either the
message of the raised exception or the ordered list of decoded page
images. -/
inductive DecodeResult where
  | failure (msg : String)
  | pages (images : List Img)

/-- Outcome of the `stitched_image.save(output_pdf, "PDF", resolution=dpi)`
call: success, or the message of the raised exception. -/
inductive SaveResult where
  | ok
  | failure (msg : String)

/-- Observable outcome of one `process_pdf` call: files written (path, pixel
content, resolution metadata), lines printed, the exception escaping the call
if any, and the Python return value (`some ()` = returned `None`). -/
structure PdfOutcome where
  written : List (String × Img × Nat)
  logs : List String
  raised : Option String
  ret : Option Unit

/-- `process_pdf(input_pdf, output_pdf, dpi)`, with the two external calls
represented by their outcomes at this invocation:
1. decode; on exception print the error and return;
2. if no pages, print and return;
3. allocate the white `(max_width, total_height)` canvas, paste every page at
   `(0, current_y)` accumulating `current_y`;
4. save as PDF (an exception here escapes: the `try` covers only the decode),
   then print the success line. -/
def process_pdf (input_pdf output_pdf : String) (dpi : Nat)
    (decode : DecodeResult) (save : SaveResult) : PdfOutcome :=
  match decode with
  | DecodeResult.failure e =>
      { written := [],
        logs := ["Error converting " ++ input_pdf ++ " to images: " ++ e],
        raised := none, ret := some () }
  | DecodeResult.pages images =>
      if images.isEmpty then
        { written := [], logs := ["No pages found in " ++ input_pdf],
          raised := none, ret := some () }
      else
        match save with
        | SaveResult.ok =>
            { written := [(output_pdf, stitchPages images, dpi)],
              logs :=
                ["Processed \x27" ++ input_pdf ++ "\x27 -> \x27" ++
                  output_pdf ++ "\x27"],
              raised := none, ret := some () }
        | SaveResult.failure e =>
            { written := [], logs := [], raised := some e, ret := none }

/-- Python `str.lower()`, character by character (`Char.toLower` agrees with
Python on the ASCII range, which is where the extension test lives). -/
def pyLower (s : String) : String :=
  String.mk (s.data.map Char.toLower)

/-- Python `str.endswith(suffix)`. -/
def pyEndsWith (s suffix : String) : Bool :=
  suffix.data.isSuffixOf s.data

/-- The filter of `process_folder`: `filename.lower().endswith(".pdf")`. -/
def selected (filename : String) : Bool :=
  pyEndsWith (pyLower filename) ".pdf"

/-- `os.path.join(dir, file)` for a plain relative entry name. -/
def joinPath (dir file : String) : String :=
  dir ++ "/" ++ file

/-- Observable outcome of a `process_folder` call: the `process_pdf`
invocations made (input path, output path, dpi) in order, the files written,
the lines printed, and the exception escaping the loop if any. -/
structure FolderOutcome where
  invoked : List (String × String × Nat)
  written : List (String × Img × Nat)
  logs : List String
  raised : Option String

/-- The loop of `process_folder` over the directory listing: entries whose
lowercased name ends in ".pdf" are processed via `process_pdf` with joined
input and output paths; others are skipped. An exception escaping a
`process_pdf` call escapes the loop (there is no try/except here), so later
entries are not reached. `decodeOf` and `saveOf` give the external
outcome of the external collaborators at each path. -/
def folderLoop (input_folder output_folder : String) (dpi : Nat)
    (decodeOf : String → DecodeResult) (saveOf : String → SaveResult) :
    List String → FolderOutcome
  | [] => { invoked := [], written := [], logs := [], raised := none }
  | filename :: rest =>
      if selected filename then
        let ip := joinPath input_folder filename
        let op := joinPath output_folder filename
        let r := process_pdf ip op dpi (decodeOf ip) (saveOf op)
        match r.raised with
        | some e =>
            { invoked := [(ip, op, dpi)], written := r.written,
              logs := r.logs, raised := some e }
        | none =>
            let tail := folderLoop input_folder output_folder dpi decodeOf saveOf rest
            { invoked := (ip, op, dpi) :: tail.invoked,
              written := r.written ++ tail.written,
              logs := r.logs ++ tail.logs,
              raised := tail.raised }
      else
        folderLoop input_folder output_folder dpi decodeOf saveOf rest

/-- `process_folder(input_folder, output_folder, dpi)` on a directory whose
listing is `listing` (`os.makedirs` of the output folder is not modelled; it
affects none of the observed data). -/
def process_folder (input_folder output_folder : String) (dpi : Nat)
    (listing : List String) (decodeOf : String → DecodeResult)
    (saveOf : String → SaveResult) : FolderOutcome :=
  folderLoop input_folder output_folder dpi decodeOf saveOf listing

/-- A sample 1×1 black page used in concrete instances. -/
def imgOne : Img :=
  { width := 1, height := 1, px := fun _ _ => (0, 0, 0) }

/-- A sample 2×2 page filled with a distinct color. -/
def imgTwo : Img :=
  { width := 2, height := 2, px := fun _ _ => (9, 9, 9) }

/-! ### Helper lemmas about folds, sums and the paste loop -/

/-- The seed of a `Nat.max` fold never exceeds the fold. -/
theorem le_foldl_max_init (l : List Nat) (a : Nat) : a ≤ l.foldl Nat.max a := by
  induction l generalizing a with
  | nil => exact Nat.le_refl a
  | cons x t ih => exact le_trans (Nat.le_max_left a x) (ih (Nat.max a x))

/-- Every member of a list is at most the `Nat.max` fold over it. -/
theorem le_foldl_max_of_mem {x : Nat} (l : List Nat) (a : Nat) (hx : x ∈ l) :
    x ≤ l.foldl Nat.max a := by
  induction l generalizing a with
  | nil => cases hx
  | cons b t ih =>
      rcases List.mem_cons.mp hx with h | h
      · subst h
        exact le_trans (Nat.le_max_right a x) (le_foldl_max_init t (Nat.max a x))
      · exact ih (Nat.max a b) h

/-- A `Nat.max` fold is either its seed or a member of the list. -/
theorem foldl_max_eq_or_mem (l : List Nat) (a : Nat) :
    l.foldl Nat.max a = a ∨ l.foldl Nat.max a ∈ l := by
  induction l generalizing a with
  | nil => exact Or.inl rfl
  | cons x t ih =>
      rcases ih (Nat.max a x) with h | h
      · rcases Nat.le_total a x with hax | hxa
        · right
          have hmax : Nat.max a x = x := max_eq_right hax
          rw [List.foldl_cons, h, hmax]
          exact List.mem_cons_self x t
        · left
          have hmax : Nat.max a x = a := max_eq_left hxa
          rw [List.foldl_cons, h, hmax]
      · exact Or.inr (List.mem_cons_of_mem x h)

/-- The final running offset of the paste loop is the starting offset plus
the total height of the pasted pages. -/
theorem pasteLoop_snd (images : List Img) :
    ∀ (canvas : Img) (y : Nat),
      (pasteLoop canvas y images).2 = y + totalHeight images := by
  induction images with
  | nil => intro canvas y; simp [pasteLoop, totalHeight]
  | cons img rest ih =>
      intro canvas y
      simp only [pasteLoop, ih, totalHeight, List.map_cons, List.sum_cons]
      omega

/-- The paste loop never touches a pixel strictly above its starting
offset. -/
theorem pasteLoop_px_low (images : List Img) :
    ∀ (canvas : Img) (y x y0 : Nat), y0 < y →
      ((pasteLoop canvas y images).1).px x y0 = canvas.px x y0 := by
  induction images with
  | nil => intro canvas y x y0 _; rfl
  | cons img rest ih =>
      intro canvas y x y0 h
      simp only [pasteLoop]
      rw [ih (paste canvas img 0 y) (y + img.height) x y0 (by omega)]
      have hcond : ¬(0 ≤ x ∧ x < 0 + img.width ∧ y ≤ y0 ∧ y0 < y + img.height) := by
        omega
      simp only [paste]
      rw [if_neg hcond]

/-- After the paste loop starting at offset `y`, the pixel at column
`x < width(page i)` and row `y + Σ(heights of pages before i) + dy` with
`dy < height(page i)` is the pixel `(x, dy)` of page `i`. -/
theorem pasteLoop_px_page (images : List Img) :
    ∀ (i : Nat) (hi : i < images.length) (canvas : Img) (y x dy : Nat),
      x < (images.get ⟨i, hi⟩).width → dy < (images.get ⟨i, hi⟩).height →
      ((pasteLoop canvas y images).1).px x
          (y + ((images.take i).map Img.height).sum + dy)
        = (images.get ⟨i, hi⟩).px x dy := by
  induction images with
  | nil => intro i hi; exact absurd hi (by simp)
  | cons img rest ih =>
      intro i hi canvas y x dy hx hy
      cases i with
      | zero =>
          simp only [List.get] at hx hy ⊢
          simp only [pasteLoop, List.take_zero, List.map_nil, List.sum_nil]
          rw [pasteLoop_px_low rest (paste canvas img 0 y) (y + img.height) x
                (y + 0 + dy) (by omega)]
          have hcond : 0 ≤ x ∧ x < 0 + img.width ∧ y ≤ y + 0 + dy ∧
              y + 0 + dy < y + img.height := by omega
          simp only [paste]
          rw [if_pos hcond]
          have e1 : x - 0 = x := by omega
          have e2 : y + 0 + dy - y = dy := by omega
          rw [e1, e2]
      | succ j =>
          have hj : j < rest.length := by simpa using hi
          simp only [List.get] at hx hy ⊢
          simp only [pasteLoop, List.take_succ_cons, List.map_cons, List.sum_cons]
          have harith : y + (img.height + ((rest.take j).map Img.height).sum) + dy
              = (y + img.height) + ((rest.take j).map Img.height).sum + dy := by
            omega
          rw [harith]
          exact ih j hj (paste canvas img 0 y) (y + img.height) x dy hx hy

/-- The height of any prefix of pages plus the height of the next page is at
most the total height. -/
theorem take_heights_add_le (images : List Img) :
    ∀ (i : Nat) (hi : i < images.length),
      ((images.take i).map Img.height).sum + (images.get ⟨i, hi⟩).height
        ≤ totalHeight images := by
  induction images with
  | nil => intro i hi; exact absurd hi (by simp)
  | cons img rest ih =>
      intro i hi
      cases i with
      | zero =>
          simp only [List.get, List.take_zero, List.map_nil, List.sum_nil,
            totalHeight, List.map_cons, List.sum_cons]
          omega
      | succ j =>
          have hj : j < rest.length := by simpa using hi
          have := ih j hj
          simp only [List.get, List.take_succ_cons, List.map_cons, List.sum_cons,
            totalHeight] at this ⊢
          omega

/-! ### Claim theorems -/

/-- C1: for every non-empty decoded page sequence, the canvas allocated by
`process_pdf` has width equal to the maximum of the page widths (an upper
bound that is attained), height equal to the exact sum of the page heights,
and every pixel initially white `(255, 255, 255)` in RGB. -/
theorem c1_canvas_dimensions_white (images : List Img) (h : images ≠ []) :
    (∀ img ∈ images, img.width ≤ (initialCanvas images).width) ∧
    (∃ img ∈ images, img.width = (initialCanvas images).width) ∧
    (initialCanvas images).height = (images.map Img.height).sum ∧
    (∀ x y, (initialCanvas images).px x y = (255, 255, 255)) := by
  refine ⟨?_, ?_, rfl, fun x y => rfl⟩
  · intro img hmem
    exact le_foldl_max_of_mem (images.map Img.width) 0
      (List.mem_map_of_mem Img.width hmem)
  · rcases foldl_max_eq_or_mem (images.map Img.width) 0 with h0 | hmem
    · rcases List.exists_cons_of_ne_nil h with ⟨img0, rest, rfl⟩
      refine ⟨img0, List.mem_cons_self img0 rest, ?_⟩
      have hle : img0.width ≤ (initialCanvas (img0 :: rest)).width :=
        le_foldl_max_of_mem _ 0
          (List.mem_map_of_mem Img.width (List.mem_cons_self img0 rest))
      have : (initialCanvas (img0 :: rest)).width = 0 := h0
      omega
    · rcases List.mem_map.mp hmem with ⟨img, hmem2, himg⟩
      exact ⟨img, hmem2, himg⟩

/-- C1 witness: instantiation at the two-page sequence
`[imgOne, imgTwo]`. -/
theorem c1_canvas_dimensions_white_witness :
    (∀ img ∈ [imgOne, imgTwo], img.width ≤ (initialCanvas [imgOne, imgTwo]).width) ∧
    (∃ img ∈ [imgOne, imgTwo], img.width = (initialCanvas [imgOne, imgTwo]).width) ∧
    (initialCanvas [imgOne, imgTwo]).height = ([imgOne, imgTwo].map Img.height).sum ∧
    (∀ x y, (initialCanvas [imgOne, imgTwo]).px x y = (255, 255, 255)) :=
  c1_canvas_dimensions_white [imgOne, imgTwo] (by simp)

/-- C2: in the canvas composed by `process_pdf`, page `i` is pasted at
horizontal offset `0` and vertical offset `Σ(h1..h(i-1))` as an unconditional
overwrite: every pixel of the band of rows `[Σ(h1..h(i-1)), Σ(h1..hi))`
within the width of page `i` equals the corresponding pixel of page `i`. -/
theorem c2_page_band (images : List Img) (i : Nat) (hi : i < images.length)
    (x dy : Nat) (hx : x < (images.get ⟨i, hi⟩).width)
    (hy : dy < (images.get ⟨i, hi⟩).height) :
    (stitchPages images).px x (((images.take i).map Img.height).sum + dy)
      = (images.get ⟨i, hi⟩).px x dy := by
  have h := pasteLoop_px_page images i hi (initialCanvas images) 0 x dy hx hy
  simpa using h

/-- C2 witness: in `stitchPages [imgOne, imgTwo]` the row band starting at
`imgOne.height = 1` shows the pixels of `imgTwo`. -/
theorem c2_page_band_witness :
    (stitchPages [imgOne, imgTwo]).px 0
        ((([imgOne, imgTwo].take 1).map Img.height).sum + 0)
      = ([imgOne, imgTwo].get ⟨1, by decide⟩).px 0 0 :=
  c2_page_band [imgOne, imgTwo] 1 (by decide) 0 0 (by decide) (by decide)

/-- C10: every paste stays within the canvas: the running vertical offset
before pasting page `i` plus the height of page `i` is at most the canvas
height, the width of page `i` is at most the canvas width, and the final
offset of the loop equals the canvas height. -/
theorem c10_paste_in_bounds (images : List Img) (i : Nat)
    (hi : i < images.length) :
    ((images.take i).map Img.height).sum + (images.get ⟨i, hi⟩).height
        ≤ (initialCanvas images).height ∧
    (images.get ⟨i, hi⟩).width ≤ (initialCanvas images).width ∧
    (pasteLoop (initialCanvas images) 0 images).2 = (initialCanvas images).height := by
  refine ⟨take_heights_add_le images i hi, ?_, ?_⟩
  · exact le_foldl_max_of_mem (images.map Img.width) 0
      (List.mem_map_of_mem Img.width (images.get_mem i hi))
  · rw [pasteLoop_snd images (initialCanvas images) 0]
    show 0 + totalHeight images = totalHeight images
    omega

/-- C10 witness: instantiation at the second page of `[imgOne, imgTwo]`. -/
theorem c10_paste_in_bounds_witness :
    (([imgOne, imgTwo].take 1).map Img.height).sum
        + ([imgOne, imgTwo].get ⟨1, by decide⟩).height
        ≤ (initialCanvas [imgOne, imgTwo]).height ∧
    ([imgOne, imgTwo].get ⟨1, by decide⟩).width
        ≤ (initialCanvas [imgOne, imgTwo]).width ∧
    (pasteLoop (initialCanvas [imgOne, imgTwo]) 0 [imgOne, imgTwo]).2
        = (initialCanvas [imgOne, imgTwo]).height :=
  c10_paste_in_bounds [imgOne, imgTwo] 1 (by decide)

/-! ### Folder-loop step lemmas and concrete collaborators -/

/-- If the per-document call raises nothing, the folder loop records the
invocation and continues with the remaining entries. -/
theorem folderLoop_cons_continue (input_folder output_folder : String)
    (dpi : Nat) (decodeOf : String → DecodeResult)
    (saveOf : String → SaveResult) (f : String) (rest : List String)
    (hsel : selected f = true)
    (hraise : (process_pdf (joinPath input_folder f) (joinPath output_folder f)
        dpi (decodeOf (joinPath input_folder f))
        (saveOf (joinPath output_folder f))).raised = none) :
    folderLoop input_folder output_folder dpi decodeOf saveOf (f :: rest)
      = { invoked := (joinPath input_folder f, joinPath output_folder f, dpi)
            :: (folderLoop input_folder output_folder dpi decodeOf saveOf
                  rest).invoked,
          written := (process_pdf (joinPath input_folder f)
              (joinPath output_folder f) dpi
              (decodeOf (joinPath input_folder f))
              (saveOf (joinPath output_folder f))).written
            ++ (folderLoop input_folder output_folder dpi decodeOf saveOf
                  rest).written,
          logs := (process_pdf (joinPath input_folder f)
              (joinPath output_folder f) dpi
              (decodeOf (joinPath input_folder f))
              (saveOf (joinPath output_folder f))).logs
            ++ (folderLoop input_folder output_folder dpi decodeOf saveOf
                  rest).logs,
          raised := (folderLoop input_folder output_folder dpi decodeOf saveOf
              rest).raised } := by
  simp only [folderLoop, hsel, if_true, hraise]

/-- An unselected entry leaves the folder loop outcome unchanged. -/
theorem folderLoop_cons_skip (input_folder output_folder : String) (dpi : Nat)
    (decodeOf : String → DecodeResult) (saveOf : String → SaveResult)
    (f : String) (rest : List String) (hsel : selected f = false) :
    folderLoop input_folder output_folder dpi decodeOf saveOf (f :: rest)
      = folderLoop input_folder output_folder dpi decodeOf saveOf rest := by
  simp only [folderLoop, hsel]
  rfl

/-- A `process_pdf` call whose save succeeds never raises. -/
theorem process_pdf_save_ok_raised (input_pdf output_pdf : String) (dpi : Nat)
    (decode : DecodeResult) :
    (process_pdf input_pdf output_pdf dpi decode SaveResult.ok).raised = none := by
  cases decode with
  | failure e => rfl
  | pages images =>
      cases images with
      | nil => rfl
      | cons a t => rfl

/-- When every save succeeds, the folder loop invokes `process_pdf` exactly
on the selected entries, in listing order, with joined paths. -/
theorem folderLoop_invoked_saveOk (input_folder output_folder : String)
    (dpi : Nat) (decodeOf : String → DecodeResult)
    (saveOf : String → SaveResult) (hok : ∀ p, saveOf p = SaveResult.ok)
    (listing : List String) :
    (folderLoop input_folder output_folder dpi decodeOf saveOf listing).invoked
      = (listing.filter selected).map
          (fun f => (joinPath input_folder f, joinPath output_folder f, dpi)) := by
  induction listing with
  | nil => rfl
  | cons f rest ih =>
      cases hs : selected f with
      | false =>
          rw [folderLoop_cons_skip input_folder output_folder dpi decodeOf
              saveOf f rest hs, List.filter_cons, hs]
          simpa using ih
      | true =>
          have hr : (process_pdf (joinPath input_folder f)
              (joinPath output_folder f) dpi
              (decodeOf (joinPath input_folder f))
              (saveOf (joinPath output_folder f))).raised = none := by
            rw [hok (joinPath output_folder f)]
            exact process_pdf_save_ok_raised _ _ _ _
          rw [folderLoop_cons_continue input_folder output_folder dpi decodeOf
              saveOf f rest hs hr, List.filter_cons, hs]
          simp [ih]

/-- A concrete rasterizer outcome: every path decodes to a single page. -/
def decodeAllOne : String → DecodeResult :=
  fun _ => DecodeResult.pages [imgOne]

/-- A concrete rasterizer outcome: every path fails to decode. -/
def decodeFailAll : String → DecodeResult :=
  fun _ => DecodeResult.failure "corrupt"

/-- A concrete encoder outcome: every save succeeds. -/
def saveOkAll : String → SaveResult :=
  fun _ => SaveResult.ok

/-- A concrete encoder outcome: saving to `out/a.pdf` raises, every other
save succeeds. -/
def saveFailOnA : String → SaveResult :=
  fun p => if p = "out/a.pdf" then SaveResult.failure "disk full" else SaveResult.ok

/-- C3 counterexample: in a batch `["a.pdf", "b.pdf"]` where every document
decodes to one page and saving `out/a.pdf` raises, `b.pdf` is selected yet
`process_pdf` is never invoked for it: the exception raised while writing the
output of `a.pdf` escapes the loop, so the claimed unconditional continuation
fails. -/
theorem c3_counterexample :
    selected "b.pdf" = true ∧
    (process_folder "in" "out" 200 ["a.pdf", "b.pdf"] decodeAllOne
        saveFailOnA).raised = some "disk full" ∧
    (process_folder "in" "out" 200 ["a.pdf", "b.pdf"] decodeAllOne
        saveFailOnA).invoked = [("in/a.pdf", "out/a.pdf", 200)] := by
  decide

/-- C3 (amended): the per-document call for an entry whose decode fails or
whose decode yields zero pages raises nothing, and the folder loop continues
to the remaining entries whenever the per-document call raises nothing; an
exception escaping the per-document call (in particular a failure while
encoding/writing its output) halts the remaining entries. -/
theorem c3_failure_isolation (input_folder output_folder : String) (dpi : Nat)
    (decodeOf : String → DecodeResult) (saveOf : String → SaveResult)
    (f : String) (rest : List String) (hsel : selected f = true) :
    (∀ e, decodeOf (joinPath input_folder f) = DecodeResult.failure e →
      (process_pdf (joinPath input_folder f) (joinPath output_folder f) dpi
        (decodeOf (joinPath input_folder f))
        (saveOf (joinPath output_folder f))).raised = none) ∧
    (decodeOf (joinPath input_folder f) = DecodeResult.pages [] →
      (process_pdf (joinPath input_folder f) (joinPath output_folder f) dpi
        (decodeOf (joinPath input_folder f))
        (saveOf (joinPath output_folder f))).raised = none) ∧
    ((process_pdf (joinPath input_folder f) (joinPath output_folder f) dpi
        (decodeOf (joinPath input_folder f))
        (saveOf (joinPath output_folder f))).raised = none →
      (folderLoop input_folder output_folder dpi decodeOf saveOf
          (f :: rest)).invoked
        = (joinPath input_folder f, joinPath output_folder f, dpi)
          :: (folderLoop input_folder output_folder dpi decodeOf saveOf
                rest).invoked) := by
  refine ⟨fun e he => by rw [he]; rfl, fun he => by rw [he]; rfl, fun hr => ?_⟩
  rw [folderLoop_cons_continue input_folder output_folder dpi decodeOf saveOf
    f rest hsel hr]

/-- C3 witness: a decode failure on `a.pdf` does not stop `b.pdf` from being
reached. -/
theorem c3_failure_isolation_witness :
    (folderLoop "in" "out" 200 decodeFailAll saveOkAll
        ["a.pdf", "b.pdf"]).invoked
      = (joinPath "in" "a.pdf", joinPath "out" "a.pdf", 200)
        :: (folderLoop "in" "out" 200 decodeFailAll saveOkAll
              ["b.pdf"]).invoked :=
  (c3_failure_isolation "in" "out" 200 decodeFailAll saveOkAll "a.pdf"
    ["b.pdf"] (by decide)).2.2 (by decide)

/-- C4: a document whose decode call raises is logged with the file name and
the underlying cause, produces no written file, returns without raising, and
the folder loop still records it and continues with the remaining sibling
entries unchanged. -/
theorem c4_decode_error_skips (input_folder output_folder : String)
    (dpi : Nat) (decodeOf : String → DecodeResult)
    (saveOf : String → SaveResult) (f : String) (rest : List String)
    (e : String) (hsel : selected f = true)
    (hdec : decodeOf (joinPath input_folder f) = DecodeResult.failure e) :
    (process_pdf (joinPath input_folder f) (joinPath output_folder f) dpi
        (decodeOf (joinPath input_folder f))
        (saveOf (joinPath output_folder f))).written = [] ∧
    (process_pdf (joinPath input_folder f) (joinPath output_folder f) dpi
        (decodeOf (joinPath input_folder f))
        (saveOf (joinPath output_folder f))).logs
      = ["Error converting " ++ joinPath input_folder f ++ " to images: " ++ e] ∧
    (process_pdf (joinPath input_folder f) (joinPath output_folder f) dpi
        (decodeOf (joinPath input_folder f))
        (saveOf (joinPath output_folder f))).raised = none ∧
    (process_pdf (joinPath input_folder f) (joinPath output_folder f) dpi
        (decodeOf (joinPath input_folder f))
        (saveOf (joinPath output_folder f))).ret = some () ∧
    (folderLoop input_folder output_folder dpi decodeOf saveOf
        (f :: rest)).written
      = (folderLoop input_folder output_folder dpi decodeOf saveOf
          rest).written ∧
    (folderLoop input_folder output_folder dpi decodeOf saveOf
        (f :: rest)).invoked
      = (joinPath input_folder f, joinPath output_folder f, dpi)
        :: (folderLoop input_folder output_folder dpi decodeOf saveOf
              rest).invoked := by
  have hr : (process_pdf (joinPath input_folder f) (joinPath output_folder f)
      dpi (decodeOf (joinPath input_folder f))
      (saveOf (joinPath output_folder f))).raised = none := by
    rw [hdec]; rfl
  have hcont := folderLoop_cons_continue input_folder output_folder dpi
    decodeOf saveOf f rest hsel hr
  refine ⟨by rw [hdec]; rfl, by rw [hdec]; rfl, hr, by rw [hdec]; rfl, ?_,
    by rw [hcont]⟩
  rw [hcont, hdec]
  rfl

/-- C4 witness: instantiation with a batch where `a.pdf` fails to decode and
`b.pdf` follows. -/
theorem c4_decode_error_skips_witness :
    (process_pdf (joinPath "in" "a.pdf") (joinPath "out" "a.pdf") 200
        (decodeFailAll (joinPath "in" "a.pdf"))
        (saveOkAll (joinPath "out" "a.pdf"))).written = [] ∧
    (process_pdf (joinPath "in" "a.pdf") (joinPath "out" "a.pdf") 200
        (decodeFailAll (joinPath "in" "a.pdf"))
        (saveOkAll (joinPath "out" "a.pdf"))).logs
      = ["Error converting " ++ joinPath "in" "a.pdf" ++ " to images: "
          ++ "corrupt"] ∧
    (process_pdf (joinPath "in" "a.pdf") (joinPath "out" "a.pdf") 200
        (decodeFailAll (joinPath "in" "a.pdf"))
        (saveOkAll (joinPath "out" "a.pdf"))).raised = none ∧
    (process_pdf (joinPath "in" "a.pdf") (joinPath "out" "a.pdf") 200
        (decodeFailAll (joinPath "in" "a.pdf"))
        (saveOkAll (joinPath "out" "a.pdf"))).ret = some () ∧
    (folderLoop "in" "out" 200 decodeFailAll saveOkAll
        ["a.pdf", "b.pdf"]).written
      = (folderLoop "in" "out" 200 decodeFailAll saveOkAll ["b.pdf"]).written ∧
    (folderLoop "in" "out" 200 decodeFailAll saveOkAll
        ["a.pdf", "b.pdf"]).invoked
      = (joinPath "in" "a.pdf", joinPath "out" "a.pdf", 200)
        :: (folderLoop "in" "out" 200 decodeFailAll saveOkAll
              ["b.pdf"]).invoked :=
  c4_decode_error_skips "in" "out" 200 decodeFailAll saveOkAll "a.pdf"
    ["b.pdf"] "corrupt" (by decide) rfl

/-- C5: a decode that succeeds with zero pages is reported, writes no output
file, and returns normally without raising. -/
theorem c5_zero_pages_noop (input_pdf output_pdf : String) (dpi : Nat)
    (save : SaveResult) :
    process_pdf input_pdf output_pdf dpi (DecodeResult.pages []) save
      = { written := [], logs := ["No pages found in " ++ input_pdf],
          raised := none, ret := some () } := rfl

/-- C6 counterexample: when encoding the output raises, `process_pdf` prints
no status line at all for that document (the exception escapes before the
success line and the decode-error line is not reached), refuting the claim
that a status line is emitted per document on every path. -/
theorem c6_counterexample :
    (process_pdf "in/a.pdf" "out/a.pdf" 200 (DecodeResult.pages [imgOne])
        (SaveResult.failure "disk full")).logs = [] ∧
    (process_pdf "in/a.pdf" "out/a.pdf" 200 (DecodeResult.pages [imgOne])
        (SaveResult.failure "disk full")).raised = some "disk full" ∧
    (process_pdf "in/a.pdf" "out/a.pdf" 200 (DecodeResult.pages [imgOne])
        (SaveResult.failure "disk full")).written = [] :=
  ⟨rfl, rfl, rfl⟩

/-- C6 (amended): exactly one file is written on success and zero files on
every failure or empty-input path, the single written file is the fully
composed canvas, and a status line is emitted on success, on decode failure,
and on empty input — but when the encoding/save raises, no status line is
emitted and the exception propagates. -/
theorem c6_write_and_log_effects (input_pdf output_pdf : String) (dpi : Nat)
    (decode : DecodeResult) (save : SaveResult) :
    (∀ e, decode = DecodeResult.failure e →
      (process_pdf input_pdf output_pdf dpi decode save).written = [] ∧
      (process_pdf input_pdf output_pdf dpi decode save).logs.length = 1) ∧
    (decode = DecodeResult.pages [] →
      (process_pdf input_pdf output_pdf dpi decode save).written = [] ∧
      (process_pdf input_pdf output_pdf dpi decode save).logs.length = 1) ∧
    (∀ images, decode = DecodeResult.pages images → images ≠ [] →
      save = SaveResult.ok →
      (process_pdf input_pdf output_pdf dpi decode save).written
        = [(output_pdf, stitchPages images, dpi)] ∧
      (process_pdf input_pdf output_pdf dpi decode save).logs.length = 1) ∧
    (∀ images e, decode = DecodeResult.pages images → images ≠ [] →
      save = SaveResult.failure e →
      (process_pdf input_pdf output_pdf dpi decode save).written = [] ∧
      (process_pdf input_pdf output_pdf dpi decode save).logs = [] ∧
      (process_pdf input_pdf output_pdf dpi decode save).raised = some e) := by
  refine ⟨?_, ?_, ?_, ?_⟩
  · intro e he
    subst he
    exact ⟨rfl, rfl⟩
  · intro he
    subst he
    exact ⟨rfl, rfl⟩
  · intro images hd hne hs
    subst hd
    subst hs
    rcases List.exists_cons_of_ne_nil hne with ⟨a, t, rfl⟩
    exact ⟨rfl, rfl⟩
  · intro images e hd hne hs
    subst hd
    subst hs
    rcases List.exists_cons_of_ne_nil hne with ⟨a, t, rfl⟩
    exact ⟨rfl, rfl, rfl⟩

/-- C6 witness: the successful path on a one-page document writes exactly the
composed canvas and prints one status line. -/
theorem c6_write_and_log_effects_witness :
    (process_pdf "in/a.pdf" "out/a.pdf" 200 (DecodeResult.pages [imgOne])
        SaveResult.ok).written = [("out/a.pdf", stitchPages [imgOne], 200)] ∧
    (process_pdf "in/a.pdf" "out/a.pdf" 200 (DecodeResult.pages [imgOne])
        SaveResult.ok).logs.length = 1 :=
  (c6_write_and_log_effects "in/a.pdf" "out/a.pdf" 200
    (DecodeResult.pages [imgOne]) SaveResult.ok).2.2.1 [imgOne] rfl
    (by simp) rfl

/-- C7 counterexample: two invocations, one of which writes an output file
and one of which does not, return the same value (`None`), so the caller
cannot determine from the return value whether an output was produced. -/
theorem c7_counterexample :
    (process_pdf "in/a.pdf" "out/a.pdf" 200 (DecodeResult.pages [imgOne])
        SaveResult.ok).ret
      = (process_pdf "in/b.pdf" "out/b.pdf" 200
          (DecodeResult.failure "corrupt") SaveResult.ok).ret ∧
    (process_pdf "in/a.pdf" "out/a.pdf" 200 (DecodeResult.pages [imgOne])
        SaveResult.ok).written.length = 1 ∧
    (process_pdf "in/b.pdf" "out/b.pdf" 200 (DecodeResult.failure "corrupt")
        SaveResult.ok).written.length = 0 :=
  ⟨rfl, rfl, rfl⟩

/-- C7 (amended): `process_pdf` returns `None` on every path on which it
returns at all (equivalently, its return value is `None` exactly when no
exception escapes), so the return value carries no success/failure
information. -/
theorem c7_return_is_always_none (input_pdf output_pdf : String) (dpi : Nat)
    (decode : DecodeResult) (save : SaveResult) :
    (process_pdf input_pdf output_pdf dpi decode save).ret = some ()
      ↔ (process_pdf input_pdf output_pdf dpi decode save).raised = none := by
  cases decode with
  | failure e => simp [process_pdf]
  | pages images =>
      cases images with
      | nil => simp [process_pdf]
      | cons a t =>
          cases save with
          | ok => simp [process_pdf]
          | failure e => simp [process_pdf]

/-- A concrete encoder outcome: saving to `dst/x.pdf` raises, every other
save succeeds. -/
def saveFailOnX : String → SaveResult :=
  fun p => if p = "dst/x.pdf" then SaveResult.failure "no space" else SaveResult.ok

/-- C8 counterexample: on the listing `["x.pdf", "y.pdf"]` where every
document decodes to one page and saving `dst/x.pdf` raises, the entry
`y.pdf` is selected by the extension filter yet the per-document step is
never invoked for it — the exception escaping the first call truncates the
loop — so the claim that `process_folder` invokes the step for each selected
entry fails as stated. -/
theorem c8_counterexample :
    selected "y.pdf" = true ∧
    (process_folder "src" "dst" 200 ["x.pdf", "y.pdf"] decodeAllOne
        saveFailOnX).invoked = [("src/x.pdf", "dst/x.pdf", 200)] ∧
    (process_folder "src" "dst" 200 ["x.pdf", "y.pdf"] decodeAllOne
        saveFailOnX).raised = some "no space" := by
  decide

/-- C8 (amended): `process_folder` considers exactly the entries whose
lowercased name ends in ".pdf" and ignores all others; as long as no earlier
per-document call raises — in particular whenever every save succeeds — it
invokes the per-document step for each selected entry, in listing order, with
input path `input_folder/entry` and output path `output_folder/entry` (same
filename). An exception escaping an earlier call truncates the loop before
the remaining selected entries. -/
theorem c8_selection_and_paths (input_folder output_folder : String)
    (dpi : Nat) (listing : List String) (decodeOf : String → DecodeResult)
    (saveOf : String → SaveResult) (hok : ∀ p, saveOf p = SaveResult.ok) :
    (process_folder input_folder output_folder dpi listing decodeOf
        saveOf).invoked
      = (listing.filter selected).map
          (fun f => (joinPath input_folder f, joinPath output_folder f, dpi)) :=
  folderLoop_invoked_saveOk input_folder output_folder dpi decodeOf saveOf
    hok listing

/-- C8 witness: on the listing `["A.PDF", "note.txt", "b.pdf"]` exactly the
two PDF entries are invoked, with joined paths, and `note.txt` is ignored. -/
theorem c8_selection_and_paths_witness :
    (process_folder "in" "out" 200 ["A.PDF", "note.txt", "b.pdf"]
        decodeAllOne saveOkAll).invoked
      = [(joinPath "in" "A.PDF", joinPath "out" "A.PDF", 200),
         (joinPath "in" "b.pdf", joinPath "out" "b.pdf", 200)] := by
  rw [c8_selection_and_paths "in" "out" 200 ["A.PDF", "note.txt", "b.pdf"]
    decodeAllOne saveOkAll (fun p => rfl)]
  decide

/-- C9: the composed pixel content written by `process_pdf` is a
deterministic function of the decoded page sequence and the dpi: any two
invocations with the same decoded pages, the same dpi and the same save
outcome write identical image content (whatever the path arguments). -/
theorem c9_composition_deterministic (in1 out1 in2 out2 : String) (dpi : Nat)
    (images : List Img) (save : SaveResult) :
    (process_pdf in1 out1 dpi (DecodeResult.pages images) save).written.map
        Prod.snd
      = (process_pdf in2 out2 dpi (DecodeResult.pages images) save).written.map
          Prod.snd := by
  cases images with
  | nil => rfl
  | cons a t => cases save <;> rfl
